import Mathlib

set_option maxRecDepth 4000

/-!
Verification development for the ESP32 CSI data-collection web application
(`web_app.py`, class `CSIDataLogger`).  The Python source is shallowly
embedded: lines of serial text are lists of characters, JSON payloads are
an inductive `JsonVal` with an executable parser modelling `json.loads`,
and the logger's mutable object state is an explicit `LoggerState` record
threaded through pure step functions.
-/

/-- A decoded JSON value, as produced by `json.loads`.  Numbers keep their
syntactic decimal mantissa and exponent (`num m e` denotes `m * 10 ^ e`);
integer literals always decode with exponent `0`.  `nan` and `inf` model the
non-standard `NaN` / `Infinity` literals that Python's `json.loads`
accepts. -/
inductive JsonVal : Type where
  | null : JsonVal
  | bool : Bool → JsonVal
  | num : Int → Int → JsonVal
  | str : List Char → JsonVal
  | arr : List JsonVal → JsonVal
  | obj : List (List Char × JsonVal) → JsonVal
  | nan : JsonVal
  | inf : Bool → JsonVal

/-- Boolean test that `p` is a prefix of `cs`. -/
def leadsWith : List Char → List Char → Bool
  | [], _ => true
  | _ :: _, [] => false
  | p :: ps, c :: cs => if p = c then leadsWith ps cs else false

/-- Boolean test that `p` occurs as a contiguous subsequence of `cs`. -/
def containsSeq (p : List Char) : List Char → Bool
  | [] => p.isEmpty
  | c :: rest => leadsWith p (c :: rest) || containsSeq p rest

/-- JSON whitespace characters. -/
def isWs (c : Char) : Bool := c = ' ' || c = '\t' || c = '\n' || c = '\r'

/-- Drop leading JSON whitespace. -/
def skipWs : List Char → List Char
  | [] => []
  | c :: cs => if isWs c then skipWs cs else c :: cs

/-- Value of a hexadecimal digit, if any. -/
def hexDigit (c : Char) : Option Nat :=
  if c.isDigit then some (c.toNat - 48)
  else if 'a' ≤ c && c ≤ 'f' then some (c.toNat - 87)
  else if 'A' ≤ c && c ≤ 'F' then some (c.toNat - 55)
  else none

/-- Split a leading run of decimal digits off a character list. -/
def takeDigits : List Char → List Char × List Char
  | [] => ([], [])
  | c :: cs =>
    if c.isDigit then
      let r := takeDigits cs
      (c :: r.fst, r.snd)
    else ([], c :: cs)

/-- Numeric value of a digit string. -/
def digitsToNat (ds : List Char) : Nat := ds.foldl (fun a c => a * 10 + (c.toNat - 48)) 0

/-- Parse the body of a JSON string literal (after the opening quote),
with the standard escape sequences; control characters are rejected as in
Python's strict mode. -/
def parseStr (acc : List Char) : List Char → Option (List Char × List Char)
  | [] => none
  | '\"' :: rest => some (acc.reverse, rest)
  | '\\' :: '\"' :: r => parseStr ('\"' :: acc) r
  | '\\' :: '\\' :: r => parseStr ('\\' :: acc) r
  | '\\' :: '/' :: r => parseStr ('/' :: acc) r
  | '\\' :: 'b' :: r => parseStr (Char.ofNat 8 :: acc) r
  | '\\' :: 'f' :: r => parseStr (Char.ofNat 12 :: acc) r
  | '\\' :: 'n' :: r => parseStr ('\n' :: acc) r
  | '\\' :: 'r' :: r => parseStr ('\r' :: acc) r
  | '\\' :: 't' :: r => parseStr ('\t' :: acc) r
  | '\\' :: 'u' :: a :: b :: c :: d :: r =>
    match hexDigit a, hexDigit b, hexDigit c, hexDigit d with
    | some x, some y, some z, some w =>
      parseStr (Char.ofNat (((x * 16 + y) * 16 + z) * 16 + w) :: acc) r
    | _, _, _, _ => none
  | '\\' :: _ => none
  | c :: rest => if c.toNat < 32 then none else parseStr (c :: acc) rest

/-- Parse an optional exponent part after mantissa `m` and decimal exponent
`e`, completing a JSON number. -/
def parseExp (m e : Int) (cs : List Char) : Option (JsonVal × List Char) :=
  match cs with
  | 'e' :: rest => parseExpTail m e rest
  | 'E' :: rest => parseExpTail m e rest
  | _ => some (JsonVal.num m e, cs)
where
  parseExpTail (m e : Int) (cs : List Char) : Option (JsonVal × List Char) :=
    let (sgn, cs1) : Int × List Char :=
      match cs with
      | '+' :: r => (1, r)
      | '-' :: r => (-1, r)
      | _ => (1, cs)
    match takeDigits cs1 with
    | ([], _) => none
    | (ds, rest) => some (JsonVal.num m (e + sgn * (digitsToNat ds : Int)), rest)

/-- Parse a JSON number (grammar of RFC 8259 as enforced by `json.loads`:
optional minus, integer part without leading zeros, optional fraction with
at least one digit, optional exponent). -/
def parseNumber (cs : List Char) : Option (JsonVal × List Char) :=
  let (neg, cs1) : Bool × List Char :=
    match cs with
    | '-' :: r => (true, r)
    | _ => (false, cs)
  match takeDigits cs1 with
  | ([], _) => none
  | (d :: ds, rest) =>
    if d = '0' && !ds.isEmpty then none
    else
      match rest with
      | '.' :: r2 =>
        (match takeDigits r2 with
         | ([], _) => none
         | (fs, r3) =>
           let mag : Nat := digitsToNat (d :: ds) * 10 ^ fs.length + digitsToNat fs
           parseExp (if neg then -(mag : Int) else (mag : Int)) (-(fs.length : Int)) r3)
      | _ =>
        parseExp (if neg then -(digitsToNat (d :: ds) : Int) else (digitsToNat (d :: ds) : Int))
          0 rest

mutual

/-- Fuel-indexed recursive-descent parser for one JSON value, mirroring the
scanner behind `json.loads` (strings, objects, arrays, the literals `true`,
`false`, `null`, `NaN`, `Infinity`, `-Infinity`, and numbers). -/
def parseVal : Nat → List Char → Option (JsonVal × List Char)
  | 0, _ => none
  | Nat.succ fuel, cs =>
    match skipWs cs with
    | [] => none
    | '{' :: r =>
      (match skipWs r with
       | '}' :: r2 => some (JsonVal.obj [], r2)
       | r2 =>
         match parseMembers fuel r2 with
         | some (ms, r3) => some (JsonVal.obj ms, r3)
         | none => none)
    | '[' :: r =>
      (match skipWs r with
       | ']' :: r2 => some (JsonVal.arr [], r2)
       | r2 =>
         match parseElems fuel r2 with
         | some (vs, r3) => some (JsonVal.arr vs, r3)
         | none => none)
    | '\"' :: r =>
      (match parseStr [] r with
       | some (s, r2) => some (JsonVal.str s, r2)
       | none => none)
    | c :: r =>
      if leadsWith (String.toList ("true")) (c :: r) then
        some (JsonVal.bool true, List.drop 4 (c :: r))
      else if leadsWith (String.toList ("false")) (c :: r) then
        some (JsonVal.bool false, List.drop 5 (c :: r))
      else if leadsWith (String.toList ("null")) (c :: r) then
        some (JsonVal.null, List.drop 4 (c :: r))
      else if leadsWith (String.toList ("NaN")) (c :: r) then
        some (JsonVal.nan, List.drop 3 (c :: r))
      else if leadsWith (String.toList ("Infinity")) (c :: r) then
        some (JsonVal.inf false, List.drop 8 (c :: r))
      else if leadsWith (String.toList ("-Infinity")) (c :: r) then
        some (JsonVal.inf true, List.drop 9 (c :: r))
      else parseNumber (c :: r)

/-- Parse the comma-separated elements of a nonempty JSON array, including
the closing bracket. -/
def parseElems : Nat → List Char → Option (List JsonVal × List Char)
  | 0, _ => none
  | Nat.succ fuel, cs =>
    match parseVal fuel cs with
    | none => none
    | some (v, r) =>
      match skipWs r with
      | ',' :: r2 =>
        (match parseElems fuel r2 with
         | some (vs, r3) => some (v :: vs, r3)
         | none => none)
      | ']' :: r2 => some ([v], r2)
      | _ => none

/-- Parse the comma-separated members of a nonempty JSON object, including
the closing brace. -/
def parseMembers : Nat → List Char → Option (List (List Char × JsonVal) × List Char)
  | 0, _ => none
  | Nat.succ fuel, cs =>
    match skipWs cs with
    | '\"' :: r =>
      (match parseStr [] r with
       | none => none
       | some (k, r2) =>
         match skipWs r2 with
         | ':' :: r3 =>
           (match parseVal fuel r3 with
            | none => none
            | some (v, r4) =>
              match skipWs r4 with
              | ',' :: r5 =>
                (match parseMembers fuel r5 with
                 | some (ms, r6) => some ((k, v) :: ms, r6)
                 | none => none)
              | '}' :: r5 => some ([(k, v)], r5)
              | _ => none)
         | _ => none)
    | _ => none

end

/-- Model of `json.loads`: parse one JSON document and require that only
whitespace remains. -/
def jsonParse (cs : List Char) : Option JsonVal :=
  match parseVal (cs.length + 1) cs with
  | some (v, rest) => if (skipWs rest).isEmpty then some v else none
  | none => none

/-- Look a key up in a decoded object's member list; a later duplicate of a
key wins, as in a Python `dict` built by `json.loads`. -/
def lookupKey (k : List Char) : List (List Char × JsonVal) → Option JsonVal
  | [] => none
  | m :: ms =>
    match lookupKey k ms with
    | some v => some v
    | none => if m.fst = k then some m.snd else none

/-- Model of `d.get(k)` on a decoded payload (`None` when the value is not
an object, which cannot arise for payloads extracted by the frame regex). -/
def jget (v : JsonVal) (k : List Char) : Option JsonVal :=
  match v with
  | JsonVal.obj ms => lookupKey k ms
  | _ => none

/-- Model of `d.get(k, default)`. -/
def jgetD (v : JsonVal) (k : List Char) (d : JsonVal) : JsonVal := (jget v k).getD d

/-- The characters `CSI_START{`: the start marker of the frame regex
`CSI_START(\x7b.*?\x7d)CSI_END` together with the mandatory opening brace. -/
def startMark : List Char := String.toList ("CSI_START") ++ ['{']

/-- The characters `CSI_END`. -/
def endMark : List Char := String.toList ("CSI_END")

/-- The characters `}CSI_END`: a closing brace immediately followed by the
end marker, the pattern at which the lazy `.*?` stops. -/
def closeMark : List Char := '}' :: endMark

/-- The lazy scan of `.*?` in the frame regex: starting just after
`CSI_START{`, advance until `}CSI_END` is next (returning the characters
consumed), fail at a newline (which `.` does not match) or at the end of
the line.  `acc` holds the consumed characters in reverse. -/
def findBody (acc : List Char) : List Char → Option (List Char)
  | [] => none
  | c :: rest =>
    if leadsWith closeMark (c :: rest) then some acc.reverse
    else if c = '\n' then none
    else findBody (c :: acc) rest

/-- Model of `re.search(r'CSI_START(\x7b.*?\x7d)CSI_END', line)`, returning
group 1 (the braces and everything between).  Match attempts start at each
position from the left; at a position where `CSI_START{` matches, the lazy
body scan runs, and on its failure the search resumes one position to the
right, exactly as the backtracking regex engine does. -/
def searchFrame : List Char → Option (List Char)
  | [] => none
  | c :: rest =>
    if leadsWith startMark (c :: rest) then
      match findBody [] (List.drop startMark.length (c :: rest)) with
      | some t => some ('{' :: (t ++ ['}']))
      | none => searchFrame rest
    else searchFrame rest

/-- Model of `CSIDataLogger.parse_csi_line`: extract the frame between the
markers and decode it with `json.loads`, returning `none` (`None`) when the
regex does not match or decoding fails. -/
def parse_csi_line (cs : List Char) : Option JsonVal :=
  match searchFrame cs with
  | some p => jsonParse p
  | none => none

/-- Key `rssi`. -/
def rssiKey : List Char := String.toList ("rssi")

/-- Key `rate`. -/
def rateKey : List Char := String.toList ("rate")

/-- Key `channel`. -/
def channelKey : List Char := String.toList ("channel")

/-- Key `bandwidth`. -/
def bandwidthKey : List Char := String.toList ("bandwidth")

/-- Key `len`. -/
def lenKey : List Char := String.toList ("len")

/-- Key `timestamp`. -/
def timestampKey : List Char := String.toList ("timestamp")

/-- Key `esp_timestamp` (looked up by `_log_loop` when building
`display_data`, although device payloads carry `timestamp` instead). -/
def espTsKey : List Char := String.toList ("esp_timestamp")

/-- Key `csi_data`. -/
def csiKey : List Char := String.toList ("csi_data")

/-- The view of a parsed payload through the six scalar fields and the
subcarrier array, as the surrounding code reads them from the returned
dict. -/
structure ParsedRecord where
  rssi : Option JsonVal
  rate : Option JsonVal
  channel : Option JsonVal
  bandwidth : Option JsonVal
  len : Option JsonVal
  timestamp : Option JsonVal
  csi_data : Option JsonVal

/-- Read the six payload fields and the array out of a decoded payload. -/
def recordOf (v : JsonVal) : ParsedRecord :=
  { rssi := jget v rssiKey, rate := jget v rateKey, channel := jget v channelKey,
    bandwidth := jget v bandwidthKey, len := jget v lenKey,
    timestamp := jget v timestampKey, csi_data := jget v csiKey }

/-- The Python integer `0`, the zero-default used for `display_data`. -/
def zeroJ : JsonVal := JsonVal.num 0 0

/-- The Python empty string, the default used for the CSV row. -/
def emptyStrJ : JsonVal := JsonVal.str []

/-- Model of `csi_data.get('csi_data', [])` in `_log_loop`, for payloads
whose `csi_data` member, when present, is an array (payloads with a
non-array member flow into the loop's exception handler and are not
modelled). -/
def csiArray (v : JsonVal) : List JsonVal :=
  match jget v csiKey with
  | some (JsonVal.arr ws) => ws
  | _ => []

/-- One CSV row as written by `_log_loop` (wall-clock capture time, the six
scalar fields with `''` defaults, and the raw subcarrier array). -/
structure CsvRow where
  timestamp : Int
  rssi : JsonVal
  rate : JsonVal
  channel : JsonVal
  bandwidth : JsonVal
  data_length : JsonVal
  esp_timestamp : JsonVal
  csi_data : List JsonVal

/-- Build the CSV row exactly as `_log_loop` does: each scalar field is
`csi_data.get(key, '')`, with key `len` feeding `data_length` and key
`timestamp` feeding `esp_timestamp`. -/
def mkCsvRow (now : Int) (v : JsonVal) (arr : List JsonVal) : CsvRow :=
  { timestamp := now,
    rssi := jgetD v rssiKey emptyStrJ,
    rate := jgetD v rateKey emptyStrJ,
    channel := jgetD v channelKey emptyStrJ,
    bandwidth := jgetD v bandwidthKey emptyStrJ,
    data_length := jgetD v lenKey emptyStrJ,
    esp_timestamp := jgetD v timestampKey emptyStrJ,
    csi_data := arr }

/-- One `display_data` record as built by `_log_loop` for the web UI. -/
structure DisplayData where
  packet_num : Nat
  timestamp : Int
  rssi : JsonVal
  rate : JsonVal
  channel : JsonVal
  bandwidth : JsonVal
  data_length : JsonVal
  esp_timestamp : JsonVal
  time_passed : Int
  subcarriers : List JsonVal

/-- Build `display_data` exactly as `_log_loop` does: each scalar field is
`csi_data.get(key, 0)`; note that the `esp_timestamp` entry reads key
`esp_timestamp`, not `timestamp`, and the `subcarrier_i` entries are the
elements of the array in order. -/
def mkDisplay (count : Nat) (now : Int) (startTime : Option Int) (v : JsonVal)
    (arr : List JsonVal) : DisplayData :=
  { packet_num := count,
    timestamp := now,
    rssi := jgetD v rssiKey zeroJ,
    rate := jgetD v rateKey zeroJ,
    channel := jgetD v channelKey zeroJ,
    bandwidth := jgetD v bandwidthKey zeroJ,
    data_length := jgetD v lenKey zeroJ,
    esp_timestamp := jgetD v espTsKey zeroJ,
    time_passed := match startTime with | some t => now - t | none => 0,
    subcarriers := arr }

/-- One `plot_point` as built by `_log_loop`: capture time, `rssi` with a
zero default, and the `subcarrier_i` entries in order. -/
structure PlotPoint where
  time : Int
  rssi : JsonVal
  subs : List JsonVal

/-- Build the plot point exactly as `_log_loop` does. -/
def mkPlotPoint (now : Int) (v : JsonVal) (arr : List JsonVal) : PlotPoint :=
  { time := now, rssi := jgetD v rssiKey zeroJ, subs := arr }

/-- Append on a `collections.deque` with `maxlen = m`: when full, the
oldest (leftmost) element is evicted first. -/
def dqAppend (m : Nat) (q : List α) (x : α) : List α :=
  if q.length < m then q ++ [x] else List.drop 1 q ++ [x]

/-- The last `n` elements of a list, in order. -/
def lastN (n : Nat) (xs : List α) : List α := xs.drop (xs.length - n)

/-- A pyserial `Serial` object (always truthy; `is_open` records whether
the port is open). -/
structure SerialPort where
  is_open : Bool

/-- The mutable state of a `CSIDataLogger` instance, restricted to the
fields the ingestion pipeline and its query methods touch. -/
structure LoggerState where
  serial_conn : Option SerialPort
  is_running : Bool
  packet_count : Nat
  csv_writer : Bool
  csv_rows : List CsvRow
  recent_data : List DisplayData
  latest_packet : Option DisplayData
  plot_data : List PlotPoint
  available_subcarriers : List Nat
  session_start_time : Option Int

/-- Add one subcarrier index to the `available_subcarriers` set. -/
def addIdx (l : List Nat) (i : Nat) : List Nat := if i ∈ l then l else l ++ [i]

/-- Model of `analyze_csi_structure`: record every index of the array in
the set of seen subcarriers. -/
def addIndices (l : List Nat) (n : Nat) : List Nat := (List.range n).foldl addIdx l

/-- The observable side effects of one loop iteration, in program order:
the CSV write and the three appends that make the record visible to
readers. -/
inductive Ev : Type where
  | sinkWrite : Ev
  | appendRecent : Ev
  | setLatest : Ev
  | appendPlot : Ev
deriving DecidableEq

/-- One successful-parse iteration of `_log_loop` (lines 210-270 of
`web_app.py`): write the CSV row when a writer exists, increment
`packet_count`, then build `display_data` and the plot point and append
them to the reader-visible structures.  Returns the new state, the
`display_data` record created, and the ordered event trace. -/
def processPayload (now : Int) (s : LoggerState) (v : JsonVal) :
    LoggerState × DisplayData × List Ev :=
  let arr := csiArray v
  let rows := if s.csv_writer then s.csv_rows ++ [mkCsvRow now v arr] else s.csv_rows
  let count := s.packet_count + 1
  let d := mkDisplay count now s.session_start_time v arr
  let p := mkPlotPoint now v arr
  ({ s with
      csv_rows := rows,
      packet_count := count,
      recent_data := dqAppend 100 s.recent_data d,
      latest_packet := some d,
      plot_data := dqAppend 200 s.plot_data p,
      available_subcarriers := addIndices s.available_subcarriers arr.length },
   d,
   (if s.csv_writer then [Ev.sinkWrite] else []) ++ [Ev.appendRecent, Ev.setLatest, Ev.appendPlot])

/-- The state after one accepted payload. -/
def stepState (now : Int) (s : LoggerState) (v : JsonVal) : LoggerState :=
  (processPayload now s v).fst

/-- The state after a sequence of accepted payloads. -/
def runState (now : Int) (s : LoggerState) (vs : List JsonVal) : LoggerState :=
  vs.foldl (stepState now) s

/-- The `display_data` records created for a sequence of accepted payloads,
in acceptance order. -/
def acceptAll (now : Int) (s : LoggerState) : List JsonVal → List DisplayData
  | [] => []
  | v :: vs => (processPayload now s v).snd.fst :: acceptAll now (stepState now s v) vs

/-- Model of `get_recent_data` (a list copy of the `recent_data` deque). -/
def get_recent_data (s : LoggerState) : List DisplayData := s.recent_data

/-- Truthiness-aware value of the Python expression
`self.serial_conn and self.serial_conn.is_open`: `None` when no connection
object exists, otherwise the boolean `is_open`. -/
inductive PyTri : Type where
  | pynone : PyTri
  | pybool : Bool → PyTri
deriving DecidableEq

/-- The fields of `get_status` the claims are about. -/
structure Status where
  connected : PyTri
  logging : Bool
  packet_count : Nat

/-- Model of `get_status` (the `port`, `session_id` and `session_dir`
entries, constant strings, are omitted). -/
def get_status (s : LoggerState) : Status :=
  { connected :=
      match s.serial_conn with
      | none => PyTri.pynone
      | some c => PyTri.pybool c.is_open,
    logging := s.is_running,
    packet_count := s.packet_count }

/-- Model of `start_logging`: reject (returning `False`, state untouched)
when no serial connection object exists or when already running; otherwise
set the running flag, the session start time, and the CSV writer, and
return `True`. -/
def start_logging (now : Int) (s : LoggerState) : Bool × LoggerState :=
  match s.serial_conn with
  | none => (false, s)
  | some _ =>
    if s.is_running then (false, s)
    else (true, { s with is_running := true, session_start_time := some now, csv_writer := true })

/-- A fresh `CSIDataLogger` as built by `__init__`. -/
def initLogger : LoggerState :=
  { serial_conn := none, is_running := false, packet_count := 0, csv_writer := false,
    csv_rows := [], recent_data := [], latest_packet := none, plot_data := [],
    available_subcarriers := [], session_start_time := none }

/-- A logger after a successful `connect()`. -/
def connectedLogger : LoggerState :=
  { initLogger with serial_conn := some { is_open := true } }

/-- A logger at the start of a logging session, after `start_logging`
succeeded at time `t`. -/
def startedLogger (t : Int) : LoggerState := (start_logging t connectedLogger).snd

/-- Model of `point.get(f'subcarrier_i', 0)`: the plot point's
`subcarrier_i` keys are exactly the indices below the array length, so an
in-range index returns the stored value and anything else returns `0`. -/
def pointGetSub (p : PlotPoint) (idx : Nat) : JsonVal :=
  if h : idx < p.subs.length then p.subs.get ⟨idx, h⟩ else zeroJ

/-- Dict assignment `m[k] = []`: reset the entry if the key exists,
otherwise add it. -/
def setSub : List (Nat × List JsonVal) → Nat → List (Nat × List JsonVal)
  | [], k => [(k, [])]
  | e :: m, k => if e.fst = k then (k, []) :: m else e :: setSub m k

/-- The initialisation loop of `get_plot_data`: one (empty) sequence per
selected subcarrier key. -/
def initSubs (sel : List Nat) : List (Nat × List JsonVal) := sel.foldl setSub []

/-- `m[k].append(x)` on the subcarrier dict: append to the entry with key
`k` (no effect when the key is absent, which the initialisation makes
unreachable). -/
def appendSub : List (Nat × List JsonVal) → Nat → JsonVal → List (Nat × List JsonVal)
  | [], _, _ => []
  | e :: m, k, x => if e.fst = k then (e.fst, e.snd ++ [x]) :: m else e :: appendSub m k x

/-- Dict lookup on the subcarrier dict (keys are unique). -/
def lookupSub : List (Nat × List JsonVal) → Nat → Option (List JsonVal)
  | [], _ => none
  | e :: m, k => if e.fst = k then some e.snd else lookupSub m k

/-- The value `plot_formatted` of `get_plot_data`: relative times, rssi
sequence, and one value sequence per selected subcarrier. -/
structure PlotOut where
  time : List Int
  rssi : List JsonVal
  subcarriers : List (Nat × List JsonVal)

/-- The body of the formatting loop of `get_plot_data` for one point:
append the relative time, the rssi, and one value per selected
subcarrier. -/
def addPoint (now : Int) (sel : List Nat) (acc : PlotOut) (p : PlotPoint) : PlotOut :=
  { time := acc.time ++ [p.time - now],
    rssi := acc.rssi ++ [p.rssi],
    subcarriers := sel.foldl (fun m sc => appendSub m sc (pointGetSub p sc)) acc.subcarriers }

/-- Model of `get_plot_data`: empty result when no plot data, otherwise
initialise one sequence per selected subcarrier and fold the formatting
loop over only the last 100 points of the plot window. -/
def get_plot_data (now : Int) (s : LoggerState) (sel : List Nat) : PlotOut :=
  if s.plot_data.isEmpty then { time := [], rssi := [], subcarriers := [] }
  else
    (lastN 100 s.plot_data).foldl (addPoint now sel)
      { time := [], rssi := [], subcarriers := initSubs sel }

/-- The list `[s, s+1, ..., s+n-1]` of `n` consecutive integers. -/
def countFrom (s : Nat) : Nat → List Nat
  | 0 => []
  | Nat.succ n => s :: countFrom (s + 1) n

/-- Events that make a record visible to readers. -/
def visibleEv : Ev → Bool
  | Ev.sinkWrite => false
  | Ev.appendRecent => true
  | Ev.setLatest => true
  | Ev.appendPlot => true

/-- Every reader-visible event in the trace is preceded by a durable sink
write. -/
def writesFirst (evs : List Ev) : Prop :=
  ∀ i : Fin evs.length, visibleEv (evs.get i) = true →
    ∃ j : Fin evs.length, j.val < i.val ∧ evs.get j = Ev.sinkWrite

/-- The positions before the start of the sought frame: `true` when the
frame regex cannot match (start anchored) at any position strictly inside
`pre`, so that the leftmost regex match is the intended frame. -/
def cleanBefore : List Char → List Char → Bool
  | [], _ => true
  | c :: pre, rest => !(leadsWith startMark (c :: (pre ++ rest))) && cleanBefore pre rest

/-- The payload characters of the spec's scenario frame, between the
braces. -/
def innerW : List Char :=
  String.toList
    ("\"rssi\":-85,\"rate\":11,\"channel\":11,\"bandwidth\":0,\"len\":4,\"timestamp\":123,\"csi_data\":[1,2,3,4]")

/-- The decoded value of the scenario payload. -/
def payloadW : JsonVal :=
  JsonVal.obj
    [(rssiKey, JsonVal.num (-85) 0), (rateKey, JsonVal.num 11 0),
     (channelKey, JsonVal.num 11 0), (bandwidthKey, JsonVal.num 0 0),
     (lenKey, JsonVal.num 4 0), (timestampKey, JsonVal.num 123 0),
     (csiKey, JsonVal.arr [JsonVal.num 1 0, JsonVal.num 2 0, JsonVal.num 3 0, JsonVal.num 4 0])]

/-- A payload with a two-element subcarrier array and no scalar fields. -/
def samplePayload : JsonVal :=
  JsonVal.obj [(csiKey, JsonVal.arr [JsonVal.num 0 0, JsonVal.num 7 0])]

/-- A payload carrying every scalar field except `rssi`. -/
def sampleNoRssi : JsonVal :=
  JsonVal.obj
    [(rateKey, JsonVal.num 11 0), (channelKey, JsonVal.num 11 0),
     (bandwidthKey, JsonVal.num 0 0), (lenKey, JsonVal.num 1 0),
     (timestampKey, JsonVal.num 123 0), (csiKey, JsonVal.arr [JsonVal.num 5 0])]

theorem leadsWith_append (p t : List Char) : leadsWith p (p ++ t) = true := by
  induction p with
  | nil => rfl
  | cons c cs ih => simp [leadsWith, ih]

theorem leadsWith_eq_true {p cs : List Char} (h : leadsWith p cs = true) :
    ∃ t, cs = p ++ t := by
  induction p generalizing cs with
  | nil => exact ⟨cs, rfl⟩
  | cons c ps ih =>
    cases cs with
    | nil => simp [leadsWith] at h
    | cons b bs =>
      by_cases hb : c = b
      · subst hb
        simp only [leadsWith, if_pos rfl] at h
        obtain ⟨t, ht⟩ := ih h
        exact ⟨t, by simp [ht]⟩
      · simp [leadsWith, hb] at h

theorem leadsWith_mono {p q cs : List Char} (h : leadsWith (p ++ q) cs = true) :
    leadsWith p cs = true := by
  obtain ⟨t, ht⟩ := leadsWith_eq_true h
  subst ht
  simpa [List.append_assoc] using leadsWith_append p (q ++ t)

theorem leadsWith_cons_ne {a c : Char} {ps cs : List Char} (h : a ≠ c) :
    leadsWith (a :: ps) (c :: cs) = false := by
  simp [leadsWith, h]

theorem containsSeq_cons (p : List Char) (c : Char) (rest : List Char) :
    containsSeq p (c :: rest) = (leadsWith p (c :: rest) || containsSeq p rest) := rfl

theorem containsSeq_of_leadsWith {p cs : List Char} (h : leadsWith p cs = true) :
    containsSeq p cs = true := by
  cases cs with
  | nil =>
    cases p with
    | nil => rfl
    | cons a ps => simp [leadsWith] at h
  | cons c rest => simp [containsSeq_cons, h]

theorem containsSeq_false_parts {p : List Char} {c : Char} {rest : List Char}
    (h : containsSeq p (c :: rest) = false) :
    leadsWith p (c :: rest) = false ∧ containsSeq p rest = false := by
  rw [containsSeq_cons] at h
  exact ⟨(Bool.or_eq_false_iff.mp h).1, (Bool.or_eq_false_iff.mp h).2⟩

theorem containsSeq_drop {p : List Char} (cs : List Char) (n : Nat)
    (h : containsSeq p cs = false) : containsSeq p (List.drop n cs) = false := by
  induction cs generalizing n with
  | nil => simpa using h
  | cons c rest ih =>
    cases n with
    | zero => simpa using h
    | succ n => simpa using ih n (containsSeq_false_parts h).2

theorem findBody_none (cs : List Char) (h : containsSeq endMark cs = false) :
    ∀ acc, findBody acc cs = none := by
  induction cs with
  | nil => intro acc; rfl
  | cons c rest ih =>
    intro acc
    have hparts := containsSeq_false_parts h
    have hclose : leadsWith closeMark (c :: rest) = false := by
      cases hl : leadsWith closeMark (c :: rest) with
      | false => rfl
      | true =>
        obtain ⟨t, ht⟩ := leadsWith_eq_true hl
        rw [closeMark] at ht
        simp only [List.cons_append, List.cons.injEq] at ht
        have hcend : containsSeq endMark rest = true := by
          rw [ht.2]
          exact containsSeq_of_leadsWith (leadsWith_append endMark t)
        simp [hparts.2] at hcend
    by_cases hn : c = '\n'
    · subst hn
      simp [findBody, hclose]
    · simp [findBody, hclose, hn, ih hparts.2 (c :: acc)]

theorem findBody_spec (inner : List Char) (hb : '}' ∉ inner) (hn : '\n' ∉ inner) :
    ∀ acc suf, findBody acc (inner ++ (closeMark ++ suf)) = some (acc.reverse ++ inner) := by
  induction inner with
  | nil =>
    intro acc suf
    simp only [List.nil_append, List.append_nil]
    have e1 : closeMark ++ suf = '}' :: (endMark ++ suf) := rfl
    rw [e1]
    have hc : leadsWith closeMark ('}' :: (endMark ++ suf)) = true := by
      have h2 := leadsWith_append closeMark suf
      rwa [e1] at h2
    simp only [findBody]
    rw [hc]
    simp
  | cons c inner ih =>
    intro acc suf
    have hc1 : c ≠ '}' := fun e => hb (by simp [e])
    have hc2 : c ≠ '\n' := fun e => hn (by simp [e])
    have hb' : '}' ∉ inner := fun e => hb (by simp [e])
    have hn' : '\n' ∉ inner := fun e => hn (by simp [e])
    have hcl : leadsWith closeMark (c :: (inner ++ (closeMark ++ suf))) = false :=
      leadsWith_cons_ne (fun e => hc1 e.symm)
    simp only [List.cons_append]
    simp only [findBody]
    rw [hcl]
    simp [hc2, ih hb' hn' (c :: acc) suf]

theorem searchFrame_hit (cs t : List Char) (h1 : leadsWith startMark cs = true)
    (h2 : findBody [] (List.drop startMark.length cs) = some t) :
    searchFrame cs = some ('{' :: (t ++ ['}'])) := by
  cases cs with
  | nil =>
    have hfalse : leadsWith startMark ([] : List Char) = false := rfl
    simp [hfalse] at h1
  | cons c rest => simp [searchFrame, h1, h2]

theorem searchFrame_miss (c : Char) (rest : List Char)
    (h : leadsWith startMark (c :: rest) = false) :
    searchFrame (c :: rest) = searchFrame rest := by
  simp [searchFrame, h]

theorem searchFrame_fail (c : Char) (rest : List Char)
    (h2 : findBody [] (List.drop startMark.length (c :: rest)) = none) :
    searchFrame (c :: rest) = searchFrame rest := by
  cases h1 : leadsWith startMark (c :: rest) with
  | false => exact searchFrame_miss c rest h1
  | true => simp [searchFrame, h1, h2]

theorem searchFrame_none_noStart (cs : List Char)
    (h : containsSeq (String.toList ("CSI_START")) cs = false) : searchFrame cs = none := by
  induction cs with
  | nil => rfl
  | cons c rest ih =>
    have hparts := containsSeq_false_parts h
    have hsm : leadsWith startMark (c :: rest) = false := by
      cases hl : leadsWith startMark (c :: rest) with
      | false => rfl
      | true =>
        have e : startMark = String.toList ("CSI_START") ++ ['{'] := rfl
        rw [e] at hl
        have hmono := leadsWith_mono hl
        rw [hparts.1] at hmono
        exact hmono.symm
    rw [searchFrame_miss c rest hsm]
    exact ih hparts.2

theorem searchFrame_none_noEnd (cs : List Char)
    (h : containsSeq endMark cs = false) : searchFrame cs = none := by
  induction cs with
  | nil => rfl
  | cons c rest ih =>
    have hparts := containsSeq_false_parts h
    have hfb : findBody [] (List.drop startMark.length (c :: rest)) = none :=
      findBody_none _ (containsSeq_drop (c :: rest) startMark.length h) []
    rw [searchFrame_fail c rest hfb]
    exact ih hparts.2

theorem searchFrame_wellformed (pre inner suf : List Char)
    (hclean : cleanBefore pre (startMark ++ (inner ++ (closeMark ++ suf))) = true)
    (hb : '}' ∉ inner) (hn : '\n' ∉ inner) :
    searchFrame (pre ++ (startMark ++ (inner ++ (closeMark ++ suf)))) =
      some ('{' :: (inner ++ ['}'])) := by
  induction pre with
  | nil =>
    simp only [List.nil_append]
    have h1 : leadsWith startMark (startMark ++ (inner ++ (closeMark ++ suf))) = true :=
      leadsWith_append _ _
    have h2 :
        findBody [] (List.drop startMark.length (startMark ++ (inner ++ (closeMark ++ suf)))) =
          some inner := by
      rw [List.drop_left]
      have hspec := findBody_spec inner hb hn [] suf
      simpa using hspec
    exact searchFrame_hit _ inner h1 h2
  | cons c pre ih =>
    simp only [cleanBefore, Bool.and_eq_true] at hclean
    have hsm : leadsWith startMark
        (c :: (pre ++ (startMark ++ (inner ++ (closeMark ++ suf))))) = false := by
      simpa using hclean.1
    simp only [List.cons_append]
    rw [searchFrame_miss _ _ hsm]
    exact ih hclean.2

/-- Claim C1: for every input line containing a well-formed frame (the
literal marker CSI_START, then a JSON object up to the first closing brace,
then CSI_END, with all payload fields present), `parse_csi_line` returns a
record whose scalar fields rssi, rate, channel, bandwidth, len, timestamp
equal the decoded payload values and whose csi_data equals the decoded
integer array, preserving order and length exactly. -/
theorem claim_C1_parser_correct (pre inner suf : List Char)
    (v rv rateV chV bwV lenV tsV : JsonVal) (ws : List JsonVal)
    (hclean : cleanBefore pre (startMark ++ (inner ++ (closeMark ++ suf))) = true)
    (hb : '}' ∉ inner) (hn : '\n' ∉ inner)
    (hjson : jsonParse ('{' :: (inner ++ ['}'])) = some v)
    (h1 : jget v rssiKey = some rv) (h2 : jget v rateKey = some rateV)
    (h3 : jget v channelKey = some chV) (h4 : jget v bandwidthKey = some bwV)
    (h5 : jget v lenKey = some lenV) (h6 : jget v timestampKey = some tsV)
    (h7 : jget v csiKey = some (JsonVal.arr ws)) :
    parse_csi_line (pre ++ (startMark ++ (inner ++ (closeMark ++ suf)))) = some v ∧
      recordOf v =
        { rssi := some rv, rate := some rateV, channel := some chV,
          bandwidth := some bwV, len := some lenV, timestamp := some tsV,
          csi_data := some (JsonVal.arr ws) } := by
  constructor
  · have hs := searchFrame_wellformed pre inner suf hclean hb hn
    simp [parse_csi_line, hs, hjson]
  · simp [recordOf, h1, h2, h3, h4, h5, h6, h7]

/-- Witness for C1: the spec's scenario line
`CSI_START(payload)CSI_END` with payload fields rssi -85, rate 11,
channel 11, bandwidth 0, len 4, timestamp 123, csi_data [1,2,3,4]. -/
theorem claim_C1_witness :
    parse_csi_line ([] ++ (startMark ++ (innerW ++ (closeMark ++ [])))) = some payloadW ∧
      recordOf payloadW =
        { rssi := some (JsonVal.num (-85) 0), rate := some (JsonVal.num 11 0),
          channel := some (JsonVal.num 11 0), bandwidth := some (JsonVal.num 0 0),
          len := some (JsonVal.num 4 0), timestamp := some (JsonVal.num 123 0),
          csi_data := some (JsonVal.arr
            [JsonVal.num 1 0, JsonVal.num 2 0, JsonVal.num 3 0, JsonVal.num 4 0]) } :=
  claim_C1_parser_correct [] innerW [] payloadW
    (JsonVal.num (-85) 0) (JsonVal.num 11 0) (JsonVal.num 11 0) (JsonVal.num 0 0)
    (JsonVal.num 4 0) (JsonVal.num 123 0)
    [JsonVal.num 1 0, JsonVal.num 2 0, JsonVal.num 3 0, JsonVal.num 4 0]
    (by rfl) (by decide) (by decide) (by rfl)
    (by rfl) (by rfl) (by rfl) (by rfl) (by rfl) (by rfl) (by rfl)

/-- Claim C2: for every input line that does not contain the
CSI_START/CSI_END markers, or whose enclosed payload is not decodable as
the expected structured format, `parse_csi_line` returns `none` and (being
a total function) never raises. -/
theorem claim_C2_no_frame (cs : List Char)
    (h : containsSeq (String.toList ("CSI_START")) cs = false
       ∨ containsSeq endMark cs = false
       ∨ ∀ p, searchFrame cs = some p → jsonParse p = none) :
    parse_csi_line cs = none := by
  rcases h with h | h | h
  · simp [parse_csi_line, searchFrame_none_noStart cs h]
  · simp [parse_csi_line, searchFrame_none_noEnd cs h]
  · cases hs : searchFrame cs with
    | none => simp [parse_csi_line, hs]
    | some p => simp [parse_csi_line, hs, h p hs]

/-- Witness for C2: an ordinary boot-log line with no markers parses to
`none`. -/
theorem claim_C2_witness :
    parse_csi_line (String.toList ("I 01:23 wifi: connected, rssi -60")) = none :=
  claim_C2_no_frame _ (Or.inl (by decide))

theorem lastN_length (n : Nat) (xs : List α) : (lastN n xs).length = min xs.length n := by
  simp [lastN, List.length_drop]
  omega

theorem lastN_of_le {n : Nat} {xs : List α} (h : xs.length ≤ n) : lastN n xs = xs := by
  simp [lastN, Nat.sub_eq_zero_of_le h]

theorem dqAppend_eq_lastN (m : Nat) (hm : 1 ≤ m) (q : List α) (x : α) (hq : q.length ≤ m) :
    dqAppend m q x = lastN m (q ++ [x]) := by
  by_cases hlt : q.length < m
  · have hz : q.length + 1 - m = 0 := by omega
    simp [dqAppend, hlt, lastN, hz]
  · have hqm : q.length = m := by omega
    cases q with
    | nil =>
      exfalso
      simp at hqm
      omega
    | cons a as =>
      have hqm' : as.length + 1 = m := by simpa using hqm
      have e1 : dqAppend m (a :: as) x = as ++ [x] := by
        show (if (a :: as).length < m then (a :: as) ++ [x] else List.drop 1 (a :: as) ++ [x]) =
          as ++ [x]
        rw [if_neg hlt]
        simp
      have e2 : lastN m ((a :: as) ++ [x]) = as ++ [x] := by
        have hlen : ((a :: as) ++ [x]).length - m = 1 := by
          simp only [List.cons_append, List.length_cons, List.length_append,
            List.length_singleton, List.length_nil]
          omega
        show ((a :: as) ++ [x]).drop (((a :: as) ++ [x]).length - m) = as ++ [x]
        rw [hlen]
        simp
      rw [e1, e2]

theorem lastN_append_one (m : Nat) (hm : 1 ≤ m) (ys : List α) (x : α) :
    lastN m (lastN m ys ++ [x]) = lastN m (ys ++ [x]) := by
  by_cases h : ys.length ≤ m
  · rw [lastN_of_le h]
  · have hml : m ≤ ys.length := by omega
    have hlast : lastN m ys = ys.drop (ys.length - m) := rfl
    have hlen : (lastN m ys).length = m := by
      rw [lastN_length]
      omega
    have lhs1 : (lastN m ys ++ [x]).length - m = 1 := by
      rw [List.length_append, hlen]
      simp
    have lhs2 : lastN m (lastN m ys ++ [x]) = (lastN m ys).drop 1 ++ [x] := by
      show (lastN m ys ++ [x]).drop ((lastN m ys ++ [x]).length - m) = (lastN m ys).drop 1 ++ [x]
      rw [lhs1, List.drop_append_of_le_length (by omega)]
    have lhs3 : (lastN m ys).drop 1 = ys.drop (ys.length - m + 1) := by
      rw [hlast, List.drop_drop]
    have rhs1 : (ys ++ [x]).length - m = ys.length - m + 1 := by
      rw [List.length_append, List.length_singleton]
      omega
    have rhs2 : lastN m (ys ++ [x]) = ys.drop (ys.length - m + 1) ++ [x] := by
      show (ys ++ [x]).drop ((ys ++ [x]).length - m) = ys.drop (ys.length - m + 1) ++ [x]
      rw [rhs1, List.drop_append_of_le_length (by omega)]
    rw [lhs2, lhs3, rhs2]

theorem foldl_dqAppend (m : Nat) (hm : 1 ≤ m) (xs : List α) :
    ∀ ys : List α, List.foldl (dqAppend m) (lastN m ys) xs = lastN m (ys ++ xs) := by
  induction xs with
  | nil => intro ys; simp
  | cons x xs ih =>
    intro ys
    have hstep : dqAppend m (lastN m ys) x = lastN m (ys ++ [x]) := by
      rw [dqAppend_eq_lastN m hm _ x (by rw [lastN_length]; omega)]
      exact lastN_append_one m hm ys x
    calc List.foldl (dqAppend m) (lastN m ys) (x :: xs)
        = List.foldl (dqAppend m) (dqAppend m (lastN m ys) x) xs := rfl
      _ = List.foldl (dqAppend m) (lastN m (ys ++ [x])) xs := by rw [hstep]
      _ = lastN m ((ys ++ [x]) ++ xs) := ih (ys ++ [x])
      _ = lastN m (ys ++ x :: xs) := by simp

theorem foldl_dqAppend_nil (m : Nat) (hm : 1 ≤ m) (xs : List α) :
    List.foldl (dqAppend m) [] xs = lastN m xs := by
  have h := foldl_dqAppend m hm xs []
  simpa [lastN] using h

theorem acceptAll_length (now : Int) (vs : List JsonVal) :
    ∀ s : LoggerState, (acceptAll now s vs).length = vs.length := by
  induction vs with
  | nil => intro s; rfl
  | cons v vs ih =>
    intro s
    simp only [acceptAll, List.length_cons]
    rw [ih (stepState now s v)]

theorem runState_recent (now : Int) (vs : List JsonVal) :
    ∀ s : LoggerState, (runState now s vs).recent_data =
      List.foldl (dqAppend 100) s.recent_data (acceptAll now s vs) := by
  induction vs with
  | nil => intro s; rfl
  | cons v vs ih =>
    intro s
    show (runState now (stepState now s v) vs).recent_data = _
    rw [ih (stepState now s v)]
    rfl

theorem runState_plot (now : Int) (vs : List JsonVal) :
    ∀ s : LoggerState, (runState now s vs).plot_data =
      List.foldl (dqAppend 200) s.plot_data
        (vs.map (fun v => mkPlotPoint now v (csiArray v))) := by
  induction vs with
  | nil => intro s; rfl
  | cons v vs ih =>
    intro s
    show (runState now (stepState now s v) vs).plot_data = _
    rw [ih (stepState now s v)]
    rfl

theorem acceptAll_packet_nums (now : Int) (vs : List JsonVal) :
    ∀ s : LoggerState,
      (acceptAll now s vs).map DisplayData.packet_num = countFrom (s.packet_count + 1) vs.length := by
  induction vs with
  | nil => intro s; rfl
  | cons v vs ih =>
    intro s
    simp only [acceptAll, List.map_cons, List.length_cons]
    rw [ih (stepState now s v)]
    rfl

/-- Claim C4: for every sequence of N appends to the recent-records window,
a subsequent `get_recent_data` snapshot has length N when N ≤ 100; when
N > 100 it has length exactly 100 and its contents equal the last 100
appended records in insertion order, oldest first.  (Stated with `lastN`
and `min`, which cover both regimes at once.) -/
theorem claim_C4_recent_window (now t : Int) (vs : List JsonVal) :
    get_recent_data (runState now (startedLogger t) vs) =
      lastN 100 (acceptAll now (startedLogger t) vs) ∧
    (get_recent_data (runState now (startedLogger t) vs)).length = min vs.length 100 := by
  have h1 : get_recent_data (runState now (startedLogger t) vs) =
      List.foldl (dqAppend 100) [] (acceptAll now (startedLogger t) vs) :=
    runState_recent now vs (startedLogger t)
  constructor
  · rw [h1, foldl_dqAppend_nil 100 (by omega)]
  · rw [h1, foldl_dqAppend_nil 100 (by omega), lastN_length, acceptAll_length]

/-- Counterexample for C6: the first accepted record of a fresh session is
numbered 1, not 0 (`packet_count` is incremented before `packet_num` is
assigned). -/
theorem claim_C6_counterexample :
    (acceptAll 0 (startedLogger 0) [samplePayload]).map DisplayData.packet_num = [1] ∧
      ([1] : List Nat) ≠ [0] := by
  constructor
  · rfl
  · decide

/-- Claim C6 as amended: within a single session, the packet numbers
assigned to accepted records are exactly 1, 2, ..., N in acceptance order —
strictly increasing consecutive integers with no gaps and no repeats, but
starting at 1 rather than 0. -/
theorem claim_C6_amended (now t : Int) (vs : List JsonVal) :
    (acceptAll now (startedLogger t) vs).map DisplayData.packet_num =
      countFrom 1 vs.length := by
  have h := acceptAll_packet_nums now vs (startedLogger t)
  have e : (startedLogger t).packet_count = 0 := rfl
  rw [e] at h
  simpa using h

/-- Claim C8: calling `start_logging` while logging is already in progress,
or while not connected (no serial connection object), returns `False`
rather than raising, and leaves `packet_count` and all other logger state
unchanged. -/
theorem claim_C8_start_rejected (now : Int) (s : LoggerState)
    (h : s.serial_conn = none ∨ s.is_running = true) :
    start_logging now s = (false, s) := by
  rcases h with h | h
  · simp [start_logging, h]
  · cases hc : s.serial_conn with
    | none => simp [start_logging, hc]
    | some c => simp [start_logging, hc, h]

/-- Witness for C8: a second `start_logging` on an already-running logger
is rejected with the state unchanged. -/
theorem claim_C8_witness :
    start_logging 5 { connectedLogger with is_running := true } =
      (false, { connectedLogger with is_running := true }) :=
  claim_C8_start_rejected 5 _ (Or.inr rfl)

/-- Claim C9: on the success path (a CSV writer exists), the event trace of
one accepted record is exactly sink-write, recent-append, latest-update,
plot-append, and every reader-visible event is preceded by the durable
sink write. -/
theorem claim_C9_write_before_visible (now : Int) (s : LoggerState) (v : JsonVal)
    (hw : s.csv_writer = true) :
    (processPayload now s v).snd.snd =
      [Ev.sinkWrite, Ev.appendRecent, Ev.setLatest, Ev.appendPlot] ∧
    writesFirst (processPayload now s v).snd.snd := by
  have he : (processPayload now s v).snd.snd =
      [Ev.sinkWrite, Ev.appendRecent, Ev.setLatest, Ev.appendPlot] := by
    show (if s.csv_writer then [Ev.sinkWrite] else []) ++
        [Ev.appendRecent, Ev.setLatest, Ev.appendPlot] = _
    rw [hw]
    rfl
  refine ⟨he, ?_⟩
  rw [he]
  unfold writesFirst
  decide

/-- Witness for C9: the trace of the first record of a started session. -/
theorem claim_C9_witness :
    (processPayload 0 (startedLogger 0) samplePayload).snd.snd =
      [Ev.sinkWrite, Ev.appendRecent, Ev.setLatest, Ev.appendPlot] ∧
    writesFirst (processPayload 0 (startedLogger 0) samplePayload).snd.snd :=
  claim_C9_write_before_visible 0 (startedLogger 0) samplePayload rfl

/-- Claim C10: before any serial connection has been opened
(`serial_conn is None`), `get_status` reports `connected` as Python `None`,
not the boolean `False`; once `serial_conn` is set the flag is the strict
boolean `is_open`. -/
theorem claim_C10_connected_tristate (s : LoggerState) :
    (s.serial_conn = none →
      (get_status s).connected = PyTri.pynone ∧
      (get_status s).connected ≠ PyTri.pybool false) ∧
    (∀ c, s.serial_conn = some c → (get_status s).connected = PyTri.pybool c.is_open) := by
  constructor
  · intro h
    constructor
    · simp [get_status, h]
    · simp [get_status, h]
  · intro c h
    simp [get_status, h]

/-- Witness for C10: a freshly constructed logger reports `None`. -/
theorem claim_C10_witness :
    (get_status initLogger).connected = PyTri.pynone ∧
      (get_status initLogger).connected ≠ PyTri.pybool false :=
  (claim_C10_connected_tristate initLogger).1 rfl

/-- Counterexample for C3: for a frame whose payload omits `rssi`, the
durable CSV row stores the empty string, not zero. -/
theorem claim_C3_counterexample :
    ((processPayload 0 (startedLogger 0) sampleNoRssi).fst.csv_rows.map CsvRow.rssi) =
      [JsonVal.str []] ∧ JsonVal.str [] ≠ JsonVal.num 0 0 := by
  constructor
  · rfl
  · intro h
    exact JsonVal.noConfusion h

/-- Claim C3 as amended: for an accepted frame whose payload omits a
numeric field, the in-memory record substitutes zero, while the durable
sink entry substitutes the empty string (not zero); the in-memory
device-timestamp entry reads key `esp_timestamp` and is zero whenever that
key is absent. -/
theorem claim_C3_amended (now : Int) (s : LoggerState) (v : JsonVal)
    (hw : s.csv_writer = true) :
    (processPayload now s v).fst.csv_rows =
        s.csv_rows ++ [mkCsvRow now v (csiArray v)] ∧
    (processPayload now s v).fst.latest_packet =
        some (mkDisplay (s.packet_count + 1) now s.session_start_time v (csiArray v)) ∧
    (jget v rssiKey = none →
      (mkDisplay (s.packet_count + 1) now s.session_start_time v (csiArray v)).rssi = zeroJ ∧
      (mkCsvRow now v (csiArray v)).rssi = emptyStrJ) ∧
    (jget v rateKey = none →
      (mkDisplay (s.packet_count + 1) now s.session_start_time v (csiArray v)).rate = zeroJ ∧
      (mkCsvRow now v (csiArray v)).rate = emptyStrJ) ∧
    (jget v channelKey = none →
      (mkDisplay (s.packet_count + 1) now s.session_start_time v (csiArray v)).channel = zeroJ ∧
      (mkCsvRow now v (csiArray v)).channel = emptyStrJ) ∧
    (jget v bandwidthKey = none →
      (mkDisplay (s.packet_count + 1) now s.session_start_time v (csiArray v)).bandwidth = zeroJ ∧
      (mkCsvRow now v (csiArray v)).bandwidth = emptyStrJ) ∧
    (jget v lenKey = none →
      (mkDisplay (s.packet_count + 1) now s.session_start_time v (csiArray v)).data_length = zeroJ ∧
      (mkCsvRow now v (csiArray v)).data_length = emptyStrJ) ∧
    (jget v timestampKey = none →
      (mkCsvRow now v (csiArray v)).esp_timestamp = emptyStrJ) ∧
    (jget v espTsKey = none →
      (mkDisplay (s.packet_count + 1) now s.session_start_time v (csiArray v)).esp_timestamp =
        zeroJ) := by
  refine ⟨?_, rfl, ?_, ?_, ?_, ?_, ?_, ?_, ?_⟩
  · show (if s.csv_writer then s.csv_rows ++ [mkCsvRow now v (csiArray v)] else s.csv_rows) = _
    rw [hw]
    rfl
  all_goals intro h
  all_goals first
    | exact ⟨by simp [mkDisplay, jgetD, h], by simp [mkCsvRow, jgetD, h]⟩
    | simp [mkDisplay, mkCsvRow, jgetD, h]

/-- Witness for C3 (amended): a payload with no fields at all gets zero in
the in-memory record and the empty string in the CSV row. -/
theorem claim_C3_witness :
    (mkDisplay ((startedLogger 0).packet_count + 1) 0 (startedLogger 0).session_start_time
        (JsonVal.obj []) (csiArray (JsonVal.obj []))).rssi = zeroJ ∧
    (mkCsvRow 0 (JsonVal.obj []) (csiArray (JsonVal.obj []))).rssi = emptyStrJ :=
  ((claim_C3_amended 0 (startedLogger 0) (JsonVal.obj []) rfl).2.2).1 rfl

theorem lookupSub_appendSub_self (m : List (Nat × List JsonVal)) (k : Nat) (x : JsonVal) :
    lookupSub (appendSub m k x) k = (lookupSub m k).map (fun l => l ++ [x]) := by
  induction m with
  | nil => rfl
  | cons e m ih =>
    by_cases h : e.fst = k
    · simp [appendSub, lookupSub, h]
    · simp [appendSub, lookupSub, h, ih]

theorem lookupSub_appendSub_ne (m : List (Nat × List JsonVal)) (j k : Nat) (x : JsonVal)
    (h : j ≠ k) : lookupSub (appendSub m j x) k = lookupSub m k := by
  induction m with
  | nil => rfl
  | cons e m ih =>
    by_cases he : e.fst = j
    · have hek : ¬(e.fst = k) := by rw [he]; exact h
      simp [appendSub, lookupSub, he, hek, h]
    · by_cases hek : e.fst = k
      · simp [appendSub, lookupSub, he, hek, Ne.symm h]
      · simp [appendSub, lookupSub, he, hek, ih]

theorem foldSel_lookup_notMem (g : Nat → JsonVal) (sel : List Nat) (k : Nat) (hk : k ∉ sel) :
    ∀ m, lookupSub (sel.foldl (fun m sc => appendSub m sc (g sc)) m) k = lookupSub m k := by
  induction sel with
  | nil => intro m; rfl
  | cons sc sel ih =>
    intro m
    have hsc : sc ≠ k := fun e => hk (by simp [e])
    have hk' : k ∉ sel := fun e => hk (by simp [e])
    rw [List.foldl_cons, ih hk' (appendSub m sc (g sc)), lookupSub_appendSub_ne m sc k (g sc) hsc]

theorem foldSel_lookup_mem (g : Nat → JsonVal) (sel : List Nat) (k : Nat)
    (hnd : sel.Nodup) (hk : k ∈ sel) :
    ∀ m, lookupSub (sel.foldl (fun m sc => appendSub m sc (g sc)) m) k =
      (lookupSub m k).map (fun l => l ++ [g k]) := by
  induction sel with
  | nil => exact absurd hk (by simp)
  | cons sc sel ih =>
    intro m
    by_cases he : sc = k
    · subst he
      have hnot : sc ∉ sel := (List.nodup_cons.mp hnd).1
      rw [List.foldl_cons, foldSel_lookup_notMem g sel sc hnot (appendSub m sc (g sc)),
        lookupSub_appendSub_self m sc (g sc)]
    · have hk' : k ∈ sel := by
        cases hk with
        | head => exact absurd rfl he
        | tail _ h => exact h
      have hnd' : sel.Nodup := (List.nodup_cons.mp hnd).2
      rw [List.foldl_cons, ih hnd' hk' (appendSub m sc (g sc)),
        lookupSub_appendSub_ne m sc k (g sc) he]

theorem foldPoints_lookup (now : Int) (sel : List Nat) (k : Nat) (hnd : sel.Nodup)
    (hk : k ∈ sel) (pts : List PlotPoint) :
    ∀ acc : PlotOut,
      lookupSub ((pts.foldl (addPoint now sel) acc).subcarriers) k =
        (lookupSub acc.subcarriers k).map
          (fun l => l ++ pts.map (fun p => pointGetSub p k)) := by
  induction pts with
  | nil =>
    intro acc
    cases hl : lookupSub acc.subcarriers k <;> simp [hl]
  | cons p pts ih =>
    intro acc
    rw [List.foldl_cons, ih (addPoint now sel acc p)]
    have h1 : lookupSub ((addPoint now sel acc p).subcarriers) k =
        (lookupSub acc.subcarriers k).map (fun l => l ++ [pointGetSub p k]) :=
      foldSel_lookup_mem (fun sc => pointGetSub p sc) sel k hnd hk acc.subcarriers
    rw [h1]
    cases hl : lookupSub acc.subcarriers k <;> simp [hl]

theorem lookupSub_setSub_self (m : List (Nat × List JsonVal)) (k : Nat) :
    lookupSub (setSub m k) k = some [] := by
  induction m with
  | nil => simp [setSub, lookupSub]
  | cons e m ih =>
    by_cases h : e.fst = k
    · simp [setSub, lookupSub, h]
    · simp [setSub, lookupSub, h, ih]

theorem lookupSub_setSub_ne (m : List (Nat × List JsonVal)) (j k : Nat) (h : j ≠ k) :
    lookupSub (setSub m j) k = lookupSub m k := by
  induction m with
  | nil => simp [setSub, lookupSub, h]
  | cons e m ih =>
    by_cases he : e.fst = j
    · have hek : ¬(e.fst = k) := by rw [he]; exact h
      simp [setSub, lookupSub, he, hek, h, Ne.symm h]
    · by_cases hek : e.fst = k
      · simp [setSub, lookupSub, he, hek, Ne.symm h]
      · simp [setSub, lookupSub, he, hek, ih]

theorem foldSetSub_notMem (sel : List Nat) (k : Nat) (hk : k ∉ sel) :
    ∀ m, lookupSub (sel.foldl setSub m) k = lookupSub m k := by
  induction sel with
  | nil => intro m; rfl
  | cons sc sel ih =>
    intro m
    have hsc : sc ≠ k := fun e => hk (by simp [e])
    have hk' : k ∉ sel := fun e => hk (by simp [e])
    rw [List.foldl_cons, ih hk' (setSub m sc), lookupSub_setSub_ne m sc k hsc]

theorem initSubs_lookup (sel : List Nat) (k : Nat) (hnd : sel.Nodup) (hk : k ∈ sel) :
    lookupSub (initSubs sel) k = some [] := by
  have main : ∀ (l : List Nat), l.Nodup → k ∈ l → ∀ m, lookupSub (l.foldl setSub m) k = some [] := by
    intro l
    induction l with
    | nil => intro _ hmem; exact absurd hmem (by simp)
    | cons sc l ih =>
      intro hnd' hmem m
      by_cases he : sc = k
      · subst he
        have hnot : sc ∉ l := (List.nodup_cons.mp hnd').1
        rw [List.foldl_cons, foldSetSub_notMem l sc hnot (setSub m sc), lookupSub_setSub_self]
      · have hmem' : k ∈ l := by
          cases hmem with
          | head => exact absurd rfl he
          | tail _ h => exact h
        rw [List.foldl_cons]
        exact ih (List.nodup_cons.mp hnd').2 hmem' (setSub m sc)
  exact main sel hnd hk []

theorem get_plot_data_lookup (now : Int) (s : LoggerState) (sel : List Nat) (k : Nat)
    (hnd : sel.Nodup) (hk : k ∈ sel) (hne : s.plot_data.isEmpty = false) :
    lookupSub (get_plot_data now s sel).subcarriers k =
      some ((lastN 100 s.plot_data).map (fun p => pointGetSub p k)) := by
  have hout : get_plot_data now s sel =
      (lastN 100 s.plot_data).foldl (addPoint now sel)
        { time := [], rssi := [], subcarriers := initSubs sel } := by
    show (if s.plot_data.isEmpty then _ else _) = _
    rw [hne]
    rfl
  rw [hout, foldPoints_lookup now sel k hnd hk (lastN 100 s.plot_data) _,
    initSubs_lookup sel k hnd hk]
  rfl

/-- Claim C7: for every plot query and every selected subcarrier index, the
returned sequence for that index exists (the query is total, never an
error) and each record's point is computed by `pointGetSub`, which yields 0
whenever the index is at or beyond that record's subcarrier-array
length. -/
theorem claim_C7_out_of_range_zero (now : Int) (s : LoggerState) (sel : List Nat) (k : Nat)
    (hnd : sel.Nodup) (hk : k ∈ sel) (hne : s.plot_data.isEmpty = false) :
    lookupSub (get_plot_data now s sel).subcarriers k =
      some ((lastN 100 s.plot_data).map (fun p => pointGetSub p k)) ∧
    ∀ p : PlotPoint, p.subs.length ≤ k → pointGetSub p k = zeroJ := by
  refine ⟨get_plot_data_lookup now s sel k hnd hk hne, ?_⟩
  intro p hp
  rw [pointGetSub, dif_neg (by omega)]

/-- Witness for C7: querying subcarrier 5 against a session whose single
record has only two subcarrier values returns the zero-filled sequence. -/
theorem claim_C7_witness :
    lookupSub (get_plot_data 0 (runState 0 (startedLogger 0) [samplePayload]) [5]).subcarriers
        5 =
      some ((lastN 100 (runState 0 (startedLogger 0) [samplePayload]).plot_data).map
        (fun p => pointGetSub p 5)) ∧
    pointGetSub (mkPlotPoint 0 samplePayload (csiArray samplePayload)) 5 = zeroJ :=
  ⟨(claim_C7_out_of_range_zero 0 (runState 0 (startedLogger 0) [samplePayload]) [5] 5
      (by decide) (by decide) rfl).1,
   (claim_C7_out_of_range_zero 0 (runState 0 (startedLogger 0) [samplePayload]) [5] 5
      (by decide) (by decide) rfl).2
     (mkPlotPoint 0 samplePayload (csiArray samplePayload)) (by decide)⟩

/-- Counterexample for C5: after 101 appends the per-subcarrier sequence
returned by `get_plot_data` has length 100, not 101, because the snapshot
slices only the last 100 points even though the window holds up to 200. -/
theorem claim_C5_counterexample :
    ((lookupSub (get_plot_data 0 (runState 0 (startedLogger 0)
          (List.replicate 101 samplePayload)) [1]).subcarriers 1).map List.length) =
      some 100 ∧ (100 : Nat) ≠ 101 := by
  constructor
  · rfl
  · decide

/-- Claim C5 as amended: the plot window itself retains the last
min(N, 200) appended points with strict FIFO eviction, but the sequences
returned by `get_plot_data` are built from only the most recent 100 points,
so their length is min(N, 100), not min(N, 200). -/
theorem claim_C5_amended (now now2 t : Int) (vs : List JsonVal) (sel : List Nat) (k : Nat)
    (hnd : sel.Nodup) (hk : k ∈ sel) (hvs : vs.length ≠ 0) :
    (runState now (startedLogger t) vs).plot_data =
        lastN 200 (vs.map (fun v => mkPlotPoint now v (csiArray v))) ∧
    (runState now (startedLogger t) vs).plot_data.length = min vs.length 200 ∧
    (lookupSub (get_plot_data now2 (runState now (startedLogger t) vs) sel).subcarriers
        k).map List.length = some (min vs.length 100) := by
  have h1 : (runState now (startedLogger t) vs).plot_data =
      List.foldl (dqAppend 200) [] (vs.map (fun v => mkPlotPoint now v (csiArray v))) :=
    runState_plot now vs (startedLogger t)
  have h2 : (runState now (startedLogger t) vs).plot_data =
      lastN 200 (vs.map (fun v => mkPlotPoint now v (csiArray v))) := by
    rw [h1, foldl_dqAppend_nil 200 (by omega)]
  have hlen : (runState now (startedLogger t) vs).plot_data.length = min vs.length 200 := by
    rw [h2, lastN_length, List.length_map]
  have hne : (runState now (startedLogger t) vs).plot_data.isEmpty = false := by
    cases hpd : (runState now (startedLogger t) vs).plot_data with
    | nil =>
      exfalso
      rw [hpd] at hlen
      simp at hlen
      omega
    | cons a l => rfl
  have h3 := get_plot_data_lookup now2 (runState now (startedLogger t) vs) sel k hnd hk hne
  refine ⟨h2, hlen, ?_⟩
  rw [h3]
  have hsl : ((lastN 100 (runState now (startedLogger t) vs).plot_data).map
      (fun p => pointGetSub p k)).length = min vs.length 100 := by
    rw [List.length_map, lastN_length, hlen]
    omega
  simp [hsl]

/-- Witness for C5 (amended): one append yields a window of one point and a
returned sequence of length one. -/
theorem claim_C5_witness :
    (runState 0 (startedLogger 0) [samplePayload]).plot_data =
        lastN 200 ([samplePayload].map (fun v => mkPlotPoint 0 v (csiArray v))) ∧
    (runState 0 (startedLogger 0) [samplePayload]).plot_data.length =
        min ([samplePayload] : List JsonVal).length 200 ∧
    (lookupSub (get_plot_data 0 (runState 0 (startedLogger 0) [samplePayload])
        [1]).subcarriers 1).map List.length =
      some (min ([samplePayload] : List JsonVal).length 100) :=
  claim_C5_amended 0 0 0 [samplePayload] [1] 1 (by decide) (by decide) (by decide)
